import Mathlib

/-!
Verification development for the CreditCardRecommendationSystem repository
(`src/main.py`).  The definitions below are a shallow embedding of the
catalog loader (`_load_cards`), the eligibility filter
(`filter_cards_by_eligibility`), the preference scorer (`score_cards`),
the fallback widening in `recommend`, and the session-state operations
that assign `current_card` (`recommend`, `suggest_alternative`,
`_switch_to_alternative`).

Python strings are modelled as Lean `String`; Python `x in y` on strings
(contiguous substring test) is `pyIn`, and `str.lower()` / `str.upper()`
are character-wise maps (the texts the program matches on are ASCII, where
Python's and Lean's case maps agree).  Python truthiness of an optional
number / string field (`card.get(k)` used as a condition) is `truthyNat` /
`truthyStr`: absent, `0`, and `""` are falsy.  Reward descriptors are used
by the code only through `str(reward).lower()` substring tests, so each is
modelled as the free text the test runs over; likewise a fee descriptor's
`str(fee)` text is its type and details joined by separators — the searched
keywords are purely alphabetic, so they cross neither kind of separator.
-/

/-- `matchAt n h`: the list `n` is a prefix of `h` (character-wise). -/
def matchAt : List Char → List Char → Bool
  | [], _ => true
  | _ :: _, [] => false
  | a :: as, b :: bs => a == b && matchAt as bs

/-- `subSeq n h`: `n` occurs as a contiguous block inside `h`. -/
def subSeq : List Char → List Char → Bool
  | n, [] => n.isEmpty
  | n, h :: t => matchAt n (h :: t) || subSeq n t

/-- Python's `needle in hay` on strings: contiguous substring test. -/
def pyIn (needle hay : List Char) : Bool := subSeq needle hay

/-- Python's `s.lower()` (character-wise, ASCII-faithful). -/
def pyLower (s : String) : List Char := s.data.map Char.toLower

/-- Python's `s.upper()` (character-wise, ASCII-faithful). -/
def pyUpper (s : String) : List Char := s.data.map Char.toUpper

/-- Python's `' '.join(parts)`, as a character list. -/
def spaceJoinChars : List String → List Char
  | [] => []
  | [s] => s.data
  | s :: t => s.data ++ ' ' :: spaceJoinChars t

/-- One entry of a card's `fee_breakdown`: a dict with a `type`
(`ftype` here) and a `details` list of strings. -/
structure FeeEntry where
  ftype : String
  details : List String
deriving DecidableEq

/-- A validated catalog card, with the fields `filter_cards_by_eligibility`
and `score_cards` read: `name`, `Institution` (`institution`), `badge`,
`eligibility_income_min` (keys `salaried`, `self_employed`, `Any` —
here `salaried`, `self_employed`, `anyIncome`), `minimum_credit_score`,
`is_bank_customer_only`, `rewards` (normalised to the free texts the code
substring-searches), and `fee_breakdown`. -/
structure Card where
  name : String
  institution : String
  badge : List String
  salaried : Option Nat
  self_employed : Option Nat
  anyIncome : Option Nat
  minimum_credit_score : Option Nat
  is_bank_customer_only : Bool
  rewards : List String
  fee_breakdown : List FeeEntry
deriving DecidableEq

/-- A card with every optional field absent, used to build examples. -/
def baseCard : Card :=
  { name := "", institution := "", badge := [], salaried := none,
    self_employed := none, anyIncome := none, minimum_credit_score := none,
    is_bank_customer_only := false, rewards := [], fee_breakdown := [] }

/-- The user's employment answer: `salaried` or `self-employed`. -/
inductive Employment where
  | salaried
  | selfEmployed
deriving DecidableEq

/-- The `user_prefs` dict built by `collect_user_preferences`. -/
structure UserPrefs where
  employment : Employment
  income : Nat
  categories : List String
  preferences : List String
  preferred_bank : Option String
  credit_score : Option Nat
deriving DecidableEq

/-- A user record with no optional fields and empty selections. -/
def baseUser : UserPrefs :=
  { employment := .salaried, income := 0, categories := [],
    preferences := [], preferred_bank := none, credit_score := none }

/-- Python truthiness of an optional number (`None` and `0` are falsy). -/
def truthyNat : Option Nat → Bool
  | some v => v != 0
  | none => false

/-- Python truthiness of an optional string (`None` and `""` are falsy). -/
def truthyStr : Option String → Bool
  | some s => s != ""
  | none => false

/-- A raw record as `_load_cards` sees it: the two inspected fields,
each possibly absent. -/
structure RawCard where
  name : Option String
  institution : Option String
deriving DecidableEq

/-- The validity test of `_load_cards`: `card.get('name') and
card.get('Institution') and card.get('Institution') != 'None' and
card.get('Institution') is not None`. -/
def validRaw (r : RawCard) : Bool :=
  truthyStr r.name && truthyStr r.institution &&
    (match r.institution with
     | some s => s != "None"
     | none => true) &&
    r.institution.isSome

/-- `_load_cards`: keep exactly the records passing `validRaw`,
in input order. -/
def loadCards (raw : List RawCard) : List RawCard := raw.filter validRaw

/-- The number of records `_load_cards` drops (it logs
`len(cards) - len(valid_cards)` implicitly via the two lengths). -/
def droppedCount (raw : List RawCard) : Nat :=
  raw.length - (loadCards raw).length

/-- The claim's wording of loader validity: `name` present and non-empty,
`institution` present, non-empty, and not the literal `"None"`. -/
def specValidRaw (r : RawCard) : Bool :=
  (match r.name with
   | some s => s != ""
   | none => false) &&
  (match r.institution with
   | some s => s != "" && s != "None"
   | none => false)

/-- Income test of `filter_cards_by_eligibility` (lines 236-244):
the `if / elif / elif` chain over `income_req.get('salaried')`,
`income_req.get('self_employed')`, `income_req.get('Any')`, each
condition using Python truthiness. -/
def incomeEligible (u : UserPrefs) (c : Card) : Bool :=
  if u.employment == .salaried && truthyNat c.salaried then
    decide (c.salaried.getD 0 ≤ u.income)
  else if u.employment == .selfEmployed && truthyNat c.self_employed then
    decide (c.self_employed.getD 0 ≤ u.income)
  else if truthyNat c.anyIncome then
    decide (c.anyIncome.getD 0 ≤ u.income)
  else
    true

/-- The claim's wording of income eligibility: a threshold applies when
the card "specifies" it, i.e. the key is present (value 0 included). -/
def specIncomeEligible (u : UserPrefs) (c : Card) : Bool :=
  if u.employment == .salaried && c.salaried.isSome then
    decide (c.salaried.getD 0 ≤ u.income)
  else if u.employment == .selfEmployed && c.self_employed.isSome then
    decide (c.self_employed.getD 0 ≤ u.income)
  else if c.anyIncome.isSome then
    decide (c.anyIncome.getD 0 ≤ u.income)
  else
    true

/-- The amended wording: a threshold applies when the card specifies a
nonzero minimum (Python truthiness makes a present 0 behave as absent). -/
def specIncomeEligibleNZ (u : UserPrefs) (c : Card) : Bool :=
  if u.employment == .salaried && c.salaried.isSome &&
      decide (c.salaried.getD 0 ≠ 0) then
    decide (c.salaried.getD 0 ≤ u.income)
  else if u.employment == .selfEmployed && c.self_employed.isSome &&
      decide (c.self_employed.getD 0 ≠ 0) then
    decide (c.self_employed.getD 0 ≤ u.income)
  else if c.anyIncome.isSome && decide (c.anyIncome.getD 0 ≠ 0) then
    decide (c.anyIncome.getD 0 ≤ u.income)
  else
    true

/-- Credit-score test of the filter (lines 247-249): applies only when
both `user_prefs.get('credit_score')` and `card.get('minimum_credit_score')`
are truthy. -/
def creditEligible (u : UserPrefs) (c : Card) : Bool :=
  if truthyNat u.credit_score && truthyNat c.minimum_credit_score then
    decide (c.minimum_credit_score.getD 0 ≤ u.credit_score.getD 0)
  else
    true

/-- Bank-customer gate of the filter (lines 252-256). -/
def bankEligible (u : UserPrefs) (c : Card) : Bool :=
  if c.is_bank_customer_only && truthyStr u.preferred_bank then
    pyIn (pyUpper (u.preferred_bank.getD "")) (pyUpper c.institution)
  else if c.is_bank_customer_only && !truthyStr u.preferred_bank then
    false
  else
    true

/-- The whole per-card test of `filter_cards_by_eligibility`: not excluded,
then income, credit and bank checks. -/
def eligibleCard (u : UserPrefs) (excl : List String) (c : Card) : Bool :=
  !(excl.contains c.institution) && incomeEligible u c &&
    creditEligible u c && bankEligible u c

/-- `filter_cards_by_eligibility`: the catalog-order sublist of cards
passing `eligibleCard`. -/
def filterCards (cards : List Card) (u : UserPrefs) (excl : List String) :
    List Card :=
  cards.filter (eligibleCard u excl)

/-- Category block of `score_cards` (lines 270-285): 15 per exact badge
match plus `(partial - exact) * 8`, all on lowercased strings, computed
with Python integer arithmetic (hence `Int`). -/
def catScore (u : UserPrefs) (c : Card) : Int :=
  let cb := c.badge.map pyLower
  let uc := u.categories.map pyLower
  let exactCnt : Nat := uc.countP (fun cat => cb.contains cat)
  let partCnt : Nat :=
    uc.countP (fun cat => cb.any (fun b => pyIn cat b || pyIn b cat))
  (exactCnt : Int) * 15 + ((partCnt : Int) - (exactCnt : Int)) * 8

/-- Exact-match count of the claims' wording: user categories present
verbatim (case-insensitively) among the badges. -/
def exCount (u : UserPrefs) (c : Card) : Nat :=
  (u.categories.map pyLower).countP
    (fun cat => (c.badge.map pyLower).contains cat)

/-- Full partial-match count: user categories that are a substring of, or
contain, some badge (case-insensitively). -/
def partCount (u : UserPrefs) (c : Card) : Nat :=
  (u.categories.map pyLower).countP
    (fun cat => (c.badge.map pyLower).any (fun b => pyIn cat b || pyIn b cat))

/-- Partial matches not already counted as exact (the claims' wording). -/
def partOnlyCount (u : UserPrefs) (c : Card) : Nat :=
  (u.categories.map pyLower).countP
    (fun cat =>
      (c.badge.map pyLower).any (fun b => pyIn cat b || pyIn b cat) &&
        !((c.badge.map pyLower).contains cat))

/-- `' '.join(fee.get('details', [])).lower()` for one fee entry. -/
def feeDetailText (f : FeeEntry) : List Char :=
  (spaceJoinChars f.details).map Char.toLower

/-- Flag `joining_fee_low` of `score_cards` (lines 308-313): some
`joining_fee` entry whose details contain `nil`, `waived`, `0` or `free`. -/
def joiningFeeLow (fees : List FeeEntry) : Bool :=
  fees.any fun f =>
    f.ftype == "joining_fee" &&
      (pyIn "nil".data (feeDetailText f) ||
       pyIn "waived".data (feeDetailText f) ||
       pyIn "0".data (feeDetailText f) ||
       pyIn "free".data (feeDetailText f))

/-- Flag `annual_fee_low` of `score_cards` (lines 314-317): some
`annual_fee` entry whose details contain `nil`, `waived`, `0`, `free`
or `lifetime`. -/
def annualFeeLow (fees : List FeeEntry) : Bool :=
  fees.any fun f =>
    f.ftype == "annual_fee" &&
      (pyIn "nil".data (feeDetailText f) ||
       pyIn "waived".data (feeDetailText f) ||
       pyIn "0".data (feeDetailText f) ||
       pyIn "free".data (feeDetailText f) ||
       pyIn "lifetime".data (feeDetailText f))

/-- Fee-preference block of `score_cards` (lines 304-324). -/
def feeScore (u : UserPrefs) (c : Card) : Int :=
  if u.preferences.contains "low fees" ||
      u.preferences.contains "no annual fee" then
    if joiningFeeLow c.fee_breakdown && annualFeeLow c.fee_breakdown then 20
    else if annualFeeLow c.fee_breakdown then 15
    else if joiningFeeLow c.fee_breakdown then 10
    else 0
  else 0

/-- The waiver keywords of the spec's fee rule. -/
def waiverKeywords : List String := ["nil", "waived", "0", "free"]

/-- The annual-fee waiver keywords (also `lifetime`). -/
def annualWaiverKeywords : List String := waiverKeywords ++ ["lifetime"]

/-- The claims' wording: some joining-fee entry whose details contain a
waiver keyword. -/
def specJoiningWaiver (fees : List FeeEntry) : Bool :=
  fees.any fun f =>
    f.ftype == "joining_fee" &&
      waiverKeywords.any (fun kw => pyIn kw.data (feeDetailText f))

/-- The claims' wording: some annual-fee entry whose details contain a
waiver keyword (including `lifetime`). -/
def specAnnualWaiver (fees : List FeeEntry) : Bool :=
  fees.any fun f =>
    f.ftype == "annual_fee" &&
      annualWaiverKeywords.any (fun kw => pyIn kw.data (feeDetailText f))

/-- The fee-preference tier rule in the claims' wording. -/
def specFeeTier (u : UserPrefs) (c : Card) : Int :=
  if u.preferences.contains "low fees" ||
      u.preferences.contains "no annual fee" then
    if specJoiningWaiver c.fee_breakdown && specAnnualWaiver c.fee_breakdown
      then 20
    else if specAnnualWaiver c.fee_breakdown then 15
    else if specJoiningWaiver c.fee_breakdown then 10
    else 0
  else 0

/-- `any(kw in str(reward).lower() ...)` over a card's rewards. -/
def rewardHas (c : Card) (kw : String) : Bool :=
  c.rewards.any (fun r => pyIn kw.data (pyLower r))

/-- The `str(fee).lower()` text a fee entry exposes to keyword search
(type and details joined; the searched keywords are alphabetic and cross
no separator, so the join is faithful to the dict repr). -/
def feeText (f : FeeEntry) : List Char :=
  (f.ftype.data ++ ' ' :: spaceJoinChars f.details).map Char.toLower

/-- Lounge block of `score_cards` (lines 327-330). -/
def loungeScore (u : UserPrefs) (c : Card) : Int :=
  if u.preferences.contains "lounge access" && rewardHas c "lounge" then 18
  else 0

/-- Fuel block of `score_cards` (lines 333-339): rewards or fee texts. -/
def fuelScore (u : UserPrefs) (c : Card) : Int :=
  if u.preferences.contains "fuel surcharge waiver" &&
      (rewardHas c "fuel" ||
        c.fee_breakdown.any (fun f => pyIn "fuel".data (feeText f))) then 15
  else 0

/-- Cashback block of `score_cards` (lines 342-345). -/
def cashbackScore (u : UserPrefs) (c : Card) : Int :=
  if u.preferences.contains "cashback" && rewardHas c "cashback" then 18
  else 0

/-- Travel block of `score_cards` (lines 348-354). -/
def travelScore (u : UserPrefs) (c : Card) : Int :=
  if u.preferences.contains "travel rewards" &&
      c.rewards.any (fun r =>
        ["travel", "miles", "points", "air"].any
          (fun kw => pyIn kw.data (pyLower r))) then 16
  else 0

/-- Movie block of `score_cards` (lines 357-360). -/
def movieScore (u : UserPrefs) (c : Card) : Int :=
  if u.preferences.contains "movie benefits" &&
      (rewardHas c "movie" || rewardHas c "pvr") then 12
  else 0

/-- Dining block of `score_cards` (lines 363-366). -/
def diningScore (u : UserPrefs) (c : Card) : Int :=
  if u.preferences.contains "dining discounts" &&
      (rewardHas c "dining" || rewardHas c "restaurant") then 12
  else 0

/-- Railway block of `score_cards` (lines 369-372). -/
def railwayScore (u : UserPrefs) (c : Card) : Int :=
  if u.preferences.contains "railway benefits" &&
      (rewardHas c "railway" || rewardHas c "irctc") then 12
  else 0

/-- Welcome block of `score_cards` (lines 375-378). -/
def welcomeScore (u : UserPrefs) (c : Card) : Int :=
  if u.preferences.contains "welcome benefits" && rewardHas c "welcome" then 8
  else 0

/-- Milestone block of `score_cards` (lines 381-384). -/
def milestoneScore (u : UserPrefs) (c : Card) : Int :=
  if u.preferences.contains "milestone rewards" && rewardHas c "milestone"
    then 10
  else 0

/-- Insurance block of `score_cards` (lines 387-390). -/
def insuranceScore (u : UserPrefs) (c : Card) : Int :=
  if u.preferences.contains "insurance coverage" &&
      (rewardHas c "insurance" || rewardHas c "cover") then 8
  else 0

/-- Preferred-bank bonus of `score_cards` (lines 393-395). -/
def bankBonusScore (u : UserPrefs) (c : Card) : Int :=
  if truthyStr u.preferred_bank &&
      pyIn (pyUpper (u.preferred_bank.getD "")) (pyUpper c.institution)
    then 25
  else 0

/-- Income-tier bonus of `score_cards` (lines 398-404). -/
def incomeTierScore (u : UserPrefs) (c : Card) : Int :=
  let cb := c.badge.map pyLower
  if 1000000 ≤ u.income then
    if cb.contains "premium".data || pyIn "signature".data (pyLower c.name)
      then 10 else 0
  else if 500000 ≤ u.income then
    if ["lifestyle", "rewards", "travel"].any (fun b => cb.contains b.data)
      then 5 else 0
  else 0

/-- The total score `score_cards` computes for one card: the sum of its
blocks, in source order. -/
def cardScore (u : UserPrefs) (c : Card) : Int :=
  catScore u c + feeScore u c + loungeScore u c + fuelScore u c +
    cashbackScore u c + travelScore u c + movieScore u c + diningScore u c +
    railwayScore u c + welcomeScore u c + milestoneScore u c +
    insuranceScore u c + bankBonusScore u c + incomeTierScore u c

/-- Insert a scored card into a descending list, before the first entry of
equal or lower score: the placement Python's stable `sort(key, reverse=True)`
gives an earlier input element. -/
def insertPair (x : Card × Int) : List (Card × Int) → List (Card × Int)
  | [] => [x]
  | y :: ys => if y.2 ≤ x.2 then x :: y :: ys else y :: insertPair x ys

/-- Stable descending sort on scores (insertion sort; agrees with Python's
stable `sort(key=lambda x: x[1], reverse=True)`). -/
def sortByScore : List (Card × Int) → List (Card × Int)
  | [] => []
  | x :: xs => insertPair x (sortByScore xs)

/-- The `(card, score)` pairs `score_cards` builds, in input order. -/
def scorePairs (u : UserPrefs) (cards : List Card) : List (Card × Int) :=
  cards.map (fun c => (c, cardScore u c))

/-- `score_cards`: score every card, sort stably by descending score,
return the cards. -/
def scoreCards (u : UserPrefs) (cards : List Card) : List Card :=
  (sortByScore (scorePairs u cards)).map Prod.fst

/-- The shortlist `recommend` builds (lines 551-556): the filter output,
or the first 20 catalog cards when the filter output is empty. -/
def recommendShortlist (cards : List Card) (u : UserPrefs)
    (excl : List String) : List Card :=
  let elig := filterCards cards u excl
  if elig.isEmpty then cards.take 20 else elig

/-- The ranked list `recommend` passes on: the scored shortlist. -/
def rankedList (cards : List Card) (u : UserPrefs) (excl : List String) :
    List Card :=
  scoreCards u (recommendShortlist cards u excl)

/-- The mutable `session_state` fields the claims are about. -/
structure SessionState where
  cur : Option Card
  recommended : List Card
  excluded : List String
deriving DecidableEq

/-- `session_state` as `__init__` creates it. -/
def initState : SessionState := ⟨none, [], []⟩

/-- The `alternatives` list `suggest_alternative` builds (lines 860-870):
recommended cards other than the current one whose institution is not
excluded. -/
def altList (s : SessionState) : List Card :=
  s.recommended.filter
    (fun k => !(s.cur == some k) && !(s.excluded.contains k.institution))

/-- `_switch_to_alternative` (lines 1048-1054): the first recommended card
whose name contains the requested name, case-insensitively. -/
def switchFind (rl : List Card) (nm : String) : Option Card :=
  rl.find? (fun c => pyIn (pyLower nm) (pyLower c.name))

/-- One session operation that assigns `current_card`, over a fixed catalog
and user record.  `recommend` assigns a card of the ranked list and stores
its top five (lines 569-573); `suggest` assigns a member of the
alternatives list and then appends its institution (lines 914-916);
`switchTo` assigns the card `_switch_to_alternative` finds
(lines 1027-1033). -/
inductive Step (cards : List Card) (u : UserPrefs) :
    SessionState → SessionState → Prop where
  | recommend (s : SessionState) (c : Card)
      (hc : c ∈ rankedList cards u s.excluded) :
      Step cards u s ⟨some c, (rankedList cards u s.excluded).take 5,
        s.excluded⟩
  | suggest (s : SessionState) (c : Card) (hc : c ∈ altList s) :
      Step cards u s ⟨some c, s.recommended,
        s.excluded ++ [c.institution]⟩
  | switchTo (s : SessionState) (nm : String) (c : Card)
      (hc : switchFind s.recommended nm = some c) :
      Step cards u s ⟨some c, s.recommended, s.excluded⟩

/-- Session states reachable through the three assigning operations. -/
abbrev Reach (cards : List Card) (u : UserPrefs) (s : SessionState) : Prop :=
  Relation.ReflTransGen (Step cards u) initState s

/-- The operations the program's main loop actually performs: `run` calls
`recommend` and then the conversational loop, whose only assignment is
`_switch_to_alternative`; `suggest_alternative` has no call site in
`main.py`. -/
inductive StepM (cards : List Card) (u : UserPrefs) :
    SessionState → SessionState → Prop where
  | recommend (s : SessionState) (c : Card)
      (hc : c ∈ rankedList cards u s.excluded) :
      StepM cards u s ⟨some c, (rankedList cards u s.excluded).take 5,
        s.excluded⟩
  | switchTo (s : SessionState) (nm : String) (c : Card)
      (hc : switchFind s.recommended nm = some c) :
      StepM cards u s ⟨some c, s.recommended, s.excluded⟩

/-- Session states reachable through the main loop's operations. -/
abbrev ReachM (cards : List Card) (u : UserPrefs) (s : SessionState) :
    Prop :=
  Relation.ReflTransGen (StepM cards u) initState s

/-- Example card for the fee-tier example: annual fee details `"Nil"`,
joining fee details `"₹500"`. -/
def feeExampleCard : Card :=
  { baseCard with
    name := "Fee Example",
    institution := "Example Bank",
    fee_breakdown := [⟨"joining_fee", ["₹500"]⟩, ⟨"annual_fee", ["Nil"]⟩] }

/-- Example user who wants "no annual fee". -/
def feeExampleUser : UserPrefs :=
  { baseUser with income := 300000, preferences := ["no annual fee"] }

/-- Example card with badges `["Travel", "Fuel"]`. -/
def catExampleCard : Card :=
  { baseCard with
    name := "Category Example",
    institution := "Example Bank",
    badge := ["Travel", "Fuel"] }

/-- Example user with categories `["Travel", "Shopping"]`. -/
def catExampleUser : UserPrefs :=
  { baseUser with income := 300000, categories := ["Travel", "Shopping"] }

/-- Card whose salaried minimum is the (specified) value 0 and whose `Any`
minimum is 600000. -/
def zeroMinCard : Card :=
  { baseCard with
    name := "Zero Min",
    institution := "Zero Bank",
    salaried := some 0,
    anyIncome := some 600000 }

/-- Salaried user with income 300000. -/
def zeroMinUser : UserPrefs := { baseUser with income := 300000 }

/-- A bank-customer-only card. -/
def bankOnlyCard : Card :=
  { baseCard with
    name := "Members Card",
    institution := "Club Bank",
    is_bank_customer_only := true }

/-- A user with no preferred bank. -/
def noBankUser : UserPrefs := { baseUser with income := 300000 }

/-- Card of an institution used in the exclusion example. -/
def exclExampleCard : Card :=
  { baseCard with name := "Excluded One", institution := "Axis Bank" }

/-- A card whose only applicable income minimum is 1000000. -/
def richCard : Card :=
  { baseCard with
    name := "Premium One",
    institution := "Big Bank",
    salaried := some 1000000,
    self_employed := some 1000000,
    anyIncome := some 1000000 }

/-- A salaried user with income 200000, below `richCard`'s minimum. -/
def poorUser : UserPrefs := { baseUser with income := 200000 }

/-- First card of the two-card session catalog. -/
def cardA : Card :=
  { baseCard with name := "Alpha Card", institution := "Bank X" }

/-- Second card of the two-card session catalog; its institution differs. -/
def cardB : Card :=
  { baseCard with name := "Beta Card", institution := "Bank Y" }

/-- The two-card catalog of the session example. -/
def sessionCatalog : List Card := [cardA, cardB]

/-- The session example's user: eligible for both cards, no scoring
preferences, so both cards score 0 and keep catalog order. -/
def sessionUser : UserPrefs := { baseUser with income := 300000 }

/-- The state after the initial recommendation assigns `cardA`. -/
def sessState1 : SessionState :=
  ⟨some cardA, (rankedList sessionCatalog sessionUser initState.excluded).take 5,
    initState.excluded⟩

/-- The state after `suggest_alternative` assigns `cardB` and appends its
institution. -/
def sessState2 : SessionState :=
  ⟨some cardB, sessState1.recommended,
    sessState1.excluded ++ [cardB.institution]⟩

/-- The state after `_switch_to_alternative` re-assigns `cardB`. -/
def sessState3 : SessionState :=
  ⟨some cardB, sessState2.recommended, sessState2.excluded⟩

lemma matchAt_self : ∀ l : List Char, matchAt l l = true
  | [] => rfl
  | a :: t => by simp [matchAt, matchAt_self t]

/-- Every string contains itself: `s in s` is true in Python. -/
lemma pyIn_self (l : List Char) : pyIn l l = true := by
  cases l with
  | nil => rfl
  | cons a t => simp [pyIn, subSeq, matchAt_self]

/-- A verbatim badge match is also a substring match. -/
lemma contains_imp_part (cb : List (List Char)) (cat : List Char)
    (h : cb.contains cat = true) :
    cb.any (fun b => pyIn cat b || pyIn b cat) = true := by
  rw [List.any_eq_true]
  exact ⟨cat, List.elem_iff.mp h, by simp [pyIn_self]⟩

/-- Counting a predicate splits into the part implied by `q` and the rest. -/
lemma countP_split {α} (p q : α → Bool) (h : ∀ a, q a = true → p a = true) :
    ∀ l : List α,
      l.countP p = l.countP q + l.countP (fun a => p a && !q a) := by
  intro l
  induction l with
  | nil => simp
  | cons a t ih =>
    cases hq : q a with
    | false =>
      cases hp : p a with
      | false => simp [List.countP_cons, hp, hq, ih]
      | true => simp [List.countP_cons, hp, hq, ih]; omega
    | true =>
      have hp : p a = true := h a hq
      simp [List.countP_cons, hp, hq, ih]; omega

/-- The full partial count is the exact count plus the strict-partial
count. -/
lemma part_split (u : UserPrefs) (c : Card) :
    partCount u c = exCount u c + partOnlyCount u c := by
  unfold partCount exCount partOnlyCount
  exact countP_split _ _ (fun a => contains_imp_part (c.badge.map pyLower) a) _

/-- The category block equals 15 per exact match plus 8 per
partial-but-not-exact match. -/
lemma catScore_eq (u : UserPrefs) (c : Card) :
    catScore u c = 15 * (exCount u c : Int) + 8 * (partOnlyCount u c : Int) := by
  have hs := part_split u c
  unfold catScore
  show (exCount u c : Int) * 15 + ((partCount u c : Int) - (exCount u c : Int)) * 8 = _
  rw [hs]
  push_cast
  ring

lemma catScore_nonneg (u : UserPrefs) (c : Card) : 0 ≤ catScore u c := by
  rw [catScore_eq]
  positivity

lemma feeScore_nonneg (u : UserPrefs) (c : Card) : 0 ≤ feeScore u c := by
  unfold feeScore
  split_ifs <;> norm_num

lemma loungeScore_nonneg (u : UserPrefs) (c : Card) : 0 ≤ loungeScore u c := by
  unfold loungeScore
  split_ifs <;> norm_num

lemma fuelScore_nonneg (u : UserPrefs) (c : Card) : 0 ≤ fuelScore u c := by
  unfold fuelScore
  split_ifs <;> norm_num

lemma cashbackScore_nonneg (u : UserPrefs) (c : Card) :
    0 ≤ cashbackScore u c := by
  unfold cashbackScore
  split_ifs <;> norm_num

lemma travelScore_nonneg (u : UserPrefs) (c : Card) : 0 ≤ travelScore u c := by
  unfold travelScore
  split_ifs <;> norm_num

lemma movieScore_nonneg (u : UserPrefs) (c : Card) : 0 ≤ movieScore u c := by
  unfold movieScore
  split_ifs <;> norm_num

lemma diningScore_nonneg (u : UserPrefs) (c : Card) : 0 ≤ diningScore u c := by
  unfold diningScore
  split_ifs <;> norm_num

lemma railwayScore_nonneg (u : UserPrefs) (c : Card) :
    0 ≤ railwayScore u c := by
  unfold railwayScore
  split_ifs <;> norm_num

lemma welcomeScore_nonneg (u : UserPrefs) (c : Card) :
    0 ≤ welcomeScore u c := by
  unfold welcomeScore
  split_ifs <;> norm_num

lemma milestoneScore_nonneg (u : UserPrefs) (c : Card) :
    0 ≤ milestoneScore u c := by
  unfold milestoneScore
  split_ifs <;> norm_num

lemma insuranceScore_nonneg (u : UserPrefs) (c : Card) :
    0 ≤ insuranceScore u c := by
  unfold insuranceScore
  split_ifs <;> norm_num

lemma bankBonusScore_nonneg (u : UserPrefs) (c : Card) :
    0 ≤ bankBonusScore u c := by
  unfold bankBonusScore
  split_ifs <;> norm_num

lemma incomeTierScore_nonneg (u : UserPrefs) (c : Card) :
    0 ≤ incomeTierScore u c := by
  unfold incomeTierScore
  dsimp only
  split_ifs <;> norm_num

lemma cardScore_nonneg (u : UserPrefs) (c : Card) : 0 ≤ cardScore u c := by
  unfold cardScore
  linarith [catScore_nonneg u c, feeScore_nonneg u c, loungeScore_nonneg u c,
    fuelScore_nonneg u c, cashbackScore_nonneg u c, travelScore_nonneg u c,
    movieScore_nonneg u c, diningScore_nonneg u c, railwayScore_nonneg u c,
    welcomeScore_nonneg u c, milestoneScore_nonneg u c,
    insuranceScore_nonneg u c, bankBonusScore_nonneg u c,
    incomeTierScore_nonneg u c]

/-- C10: every user category counted as an exact badge match is also
counted by the partial-match loop, so the partial count is at least the
exact count, the term `(partial - exact) * 8` is never negative, and the
total score of every card is a non-negative integer. -/
theorem c10_score_nonneg (u : UserPrefs) (c : Card) :
    exCount u c ≤ partCount u c ∧ 0 ≤ cardScore u c :=
  ⟨by rw [part_split u c]; exact Nat.le_add_right _ _, cardScore_nonneg u c⟩

/-- C2: category-match scoring adds 15 points per user category present
verbatim (case-insensitively) among the badges plus 8 points per user
category that partially matches a badge without being an exact match;
the example card with badges `["Travel", "Fuel"]` and user categories
`["Travel", "Shopping"]` gets exactly +15 from category matching. -/
theorem c2_category_match_score :
    (∀ (u : UserPrefs) (c : Card),
      catScore u c = 15 * (exCount u c : Int) + 8 * (partOnlyCount u c : Int)) ∧
    catScore catExampleUser catExampleCard = 15 :=
  ⟨catScore_eq, by decide⟩

/-- The code's joining-fee flag agrees with the keyword-list wording. -/
lemma joiningFeeLow_eq (fees : List FeeEntry) :
    joiningFeeLow fees = specJoiningWaiver fees := by
  unfold joiningFeeLow specJoiningWaiver
  congr 1
  funext f
  simp [waiverKeywords, Bool.or_assoc]

/-- The code's annual-fee flag agrees with the keyword-list wording. -/
lemma annualFeeLow_eq (fees : List FeeEntry) :
    annualFeeLow fees = specAnnualWaiver fees := by
  unfold annualFeeLow specAnnualWaiver
  congr 1
  funext f
  simp [annualWaiverKeywords, waiverKeywords, Bool.or_assoc]

/-- C1 (counterexample): for the card whose annual fee details contain
`"Nil"` and whose joining fee details contain `"₹500"`, a user wanting
"no annual fee" gets a fee-preference contribution of 20, not the claimed
15 — `"₹500"` contains the waiver keyword `"0"` as a substring, so the
joining-fee flag also fires. -/
theorem c1_fee_example_counterexample :
    feeScore feeExampleUser feeExampleCard = 20 ∧
      joiningFeeLow feeExampleCard.fee_breakdown = true ∧
      feeScore feeExampleUser feeExampleCard ≠ 15 := by decide

/-- C1 (amended): the fee-preference tiers are exactly as stated — both
fees waived → 20, annual-only → 15, joining-only → 10, else 0, and 0 when
the user wants neither "low fees" nor "no annual fee" — but on the example
card the joining fee details `"₹500"` do contain the waiver keyword `"0"`,
so the contribution is 20. -/
theorem c1_fee_tiers_amended :
    (∀ (u : UserPrefs) (c : Card), feeScore u c = specFeeTier u c) ∧
      feeScore feeExampleUser feeExampleCard = 20 :=
  ⟨fun u c => by
    unfold feeScore specFeeTier
    rw [joiningFeeLow_eq, annualFeeLow_eq],
   by decide⟩

/-- Truthiness of an optional number, split into presence and nonzeroness. -/
lemma truthyNat_eq (o : Option Nat) :
    truthyNat o = (o.isSome && decide (o.getD 0 ≠ 0)) := by
  cases o with
  | none => rfl
  | some v => by_cases h : v = 0 <;> simp [truthyNat, h]

/-- C3 (counterexample): on a card whose salaried minimum is the specified
value 0 and whose `Any` minimum is 600000, a salaried user with income
300000 is eligible under the claim's reading (the specified salaried
threshold applies, 300000 ≥ 0) but the filter rejects the card: Python's
truthiness sends the value 0 to the `Any` branch, and 300000 < 600000. -/
theorem c3_income_spec_counterexample :
    specIncomeEligible zeroMinUser zeroMinCard = true ∧
      incomeEligible zeroMinUser zeroMinCard = false ∧
      filterCards [zeroMinCard] zeroMinUser [] = [] := by decide

/-- C3 (amended): the precedence chain is as claimed once "specifies a
minimum" is read as "specifies a nonzero minimum" — the employment-specific
threshold wins over `Any`, income equal to the applicable threshold is
eligible, and a card with no applicable nonzero threshold is eligible. -/
theorem c3_income_precedence_amended (u : UserPrefs) (c : Card) :
    incomeEligible u c = specIncomeEligibleNZ u c := by
  unfold incomeEligible specIncomeEligibleNZ
  simp only [truthyNat_eq, Bool.and_assoc]

/-- The code's per-record loader test agrees with the claim's wording. -/
lemma validRaw_eq (r : RawCard) : validRaw r = specValidRaw r := by
  obtain ⟨n, i⟩ := r
  cases n <;> cases i <;> simp [validRaw, specValidRaw, truthyStr, Bool.and_assoc]

/-- C7: the loader returns exactly the subsequence (input order preserved)
of records with a non-empty name and a present, non-empty institution other
than the literal `"None"`; kept records plus dropped records account for
the whole input. -/
theorem c7_loader_contract (raw : List RawCard) :
    (loadCards raw).Sublist raw ∧
      loadCards raw = raw.filter specValidRaw ∧
      (loadCards raw).length + droppedCount raw = raw.length :=
  ⟨List.filter_sublist _,
   by rw [loadCards, funext validRaw_eq],
   Nat.add_sub_cancel' (List.length_filter_le _ _)⟩

/-- C8: when the eligibility filter yields an empty result, `recommend`
substitutes exactly the first 20 catalog cards, unfiltered.  (The code
only prints a message at that point; it sets no flag readable by
downstream code, which is the divergence recorded for this claim.) -/
theorem c8_fallback_first20 :
    filterCards [richCard] poorUser [] = [] ∧
      recommendShortlist [richCard] poorUser [] = List.take 20 [richCard] ∧
      recommendShortlist [richCard] poorUser [] = [richCard] := by decide

/-- A card passing the filter test passes all four component tests. -/
lemma eligibleCard_parts {u : UserPrefs} {excl : List String} {c : Card}
    (h : eligibleCard u excl c = true) :
    excl.contains c.institution = false ∧ incomeEligible u c = true ∧
      creditEligible u c = true ∧ bankEligible u c = true := by
  unfold eligibleCard at h
  simp only [Bool.and_eq_true, Bool.not_eq_true'] at h
  exact ⟨h.1.1.1, h.1.1.2, h.1.2, h.2⟩

/-- C4: a bank-customer-only card passes the filter only if the user's
preferred bank is set and is a case-insensitive substring of the card's
institution; with no preferred bank set, every such card is excluded,
whatever its other fields. -/
theorem c4_bank_customer_gate (cards : List Card) (u : UserPrefs)
    (excl : List String) (c : Card)
    (hb : c.is_bank_customer_only = true) :
    (c ∈ filterCards cards u excl →
      u.preferred_bank.isSome = true ∧
        pyIn (pyUpper (u.preferred_bank.getD "")) (pyUpper c.institution)
          = true) ∧
    (u.preferred_bank = none → c ∉ filterCards cards u excl) := by
  constructor
  · intro hmem
    have hbk := (eligibleCard_parts (List.mem_filter.mp hmem).2).2.2.2
    unfold bankEligible at hbk
    rw [hb] at hbk
    cases ht : truthyStr u.preferred_bank with
    | false => rw [ht] at hbk; simp at hbk
    | true =>
      rw [ht] at hbk
      simp at hbk
      refine ⟨?_, hbk⟩
      cases hpb : u.preferred_bank with
      | none => rw [hpb] at ht; simp [truthyStr] at ht
      | some s => rfl
  · intro hn hmem
    have hbk := (eligibleCard_parts (List.mem_filter.mp hmem).2).2.2.2
    unfold bankEligible at hbk
    rw [hb, hn] at hbk
    simp [truthyStr] at hbk

/-- Witness for C4 at a concrete input: the bank-customer-only card is
dropped for the user with no preferred bank. -/
theorem c4_bank_customer_gate_witness :
    bankOnlyCard ∉ filterCards [bankOnlyCard] noBankUser [] :=
  (c4_bank_customer_gate [bankOnlyCard] noBankUser [] bankOnlyCard
    (by decide)).2 rfl

lemma perm_insertPair (x : Card × Int) (l : List (Card × Int)) :
    (insertPair x l).Perm (x :: l) := by
  induction l with
  | nil => exact List.Perm.refl _
  | cons y ys ih =>
    unfold insertPair
    split
    · exact List.Perm.refl _
    · exact ((ih.cons y).trans (List.Perm.swap x y ys))

lemma perm_sortByScore (l : List (Card × Int)) : (sortByScore l).Perm l := by
  induction l with
  | nil => exact List.Perm.refl _
  | cons x xs ih => exact (perm_insertPair x (sortByScore xs)).trans (ih.cons x)

/-- The scorer returns a permutation of its input. -/
lemma perm_scoreCards (u : UserPrefs) (cards : List Card) :
    (scoreCards u cards).Perm cards := by
  have h := (perm_sortByScore (scorePairs u cards)).map Prod.fst
  unfold scoreCards
  have h2 : (scorePairs u cards).map Prod.fst = cards := by
    unfold scorePairs
    rw [List.map_map]
    exact List.map_id'' (fun x => rfl) _
  rw [h2] at h
  exact h

lemma mem_scoreCards {u : UserPrefs} {cards : List Card} {c : Card} :
    c ∈ scoreCards u cards ↔ c ∈ cards :=
  (perm_scoreCards u cards).mem_iff

/-- C6: for every state of the excluded-institutions set, no card whose
institution is in that set survives the filter-then-score pipeline; in
particular, once a rejected card's institution is appended, re-running the
pipeline from the full catalog can never produce that card again. -/
theorem c6_exclusion_respected (cards : List Card) (u : UserPrefs)
    (excl : List String) (c : Card) (h : c.institution ∈ excl) :
    c ∉ scoreCards u (filterCards cards u excl) := by
  intro hmem
  have h1 : c ∈ filterCards cards u excl := mem_scoreCards.mp hmem
  have h2 := (eligibleCard_parts (List.mem_filter.mp h1).2).1
  have h3 : excl.contains c.institution = true := List.elem_iff.mpr h
  rw [h2] at h3
  exact Bool.false_ne_true h3

/-- Witness for C6 at a concrete input: with `"Axis Bank"` excluded, the
Axis Bank card is absent from the freshly ranked list. -/
theorem c6_exclusion_respected_witness :
    exclExampleCard ∉
      scoreCards sessionUser
        (filterCards [exclExampleCard] sessionUser ["Axis Bank"]) :=
  c6_exclusion_respected [exclExampleCard] sessionUser ["Axis Bank"]
    exclExampleCard (by decide)

/-- Inserting keeps a descending score list descending. -/
lemma pairwise_insertPair {x : Card × Int} {l : List (Card × Int)}
    (h : l.Pairwise (fun a b => b.2 ≤ a.2)) :
    (insertPair x l).Pairwise (fun a b => b.2 ≤ a.2) := by
  induction l with
  | nil => simp [insertPair]
  | cons y ys ih =>
    rw [List.pairwise_cons] at h
    unfold insertPair
    split
    · rename_i hle
      rw [List.pairwise_cons]
      refine ⟨?_, List.pairwise_cons.mpr h⟩
      intro z hz
      rcases List.mem_cons.mp hz with hz | hz
      · rw [hz]; exact hle
      · exact le_trans (h.1 z hz) hle
    · rename_i hgt
      rw [List.pairwise_cons]
      refine ⟨?_, ih h.2⟩
      intro z hz
      have hz2 := (perm_insertPair x ys).mem_iff.mp hz
      rcases List.mem_cons.mp hz2 with hz2 | hz2
      · rw [hz2]; exact le_of_not_le (by simpa using hgt)
      · exact h.1 z hz2

/-- The sorted pair list is descending on scores. -/
lemma pairwise_sortByScore (l : List (Card × Int)) :
    (sortByScore l).Pairwise (fun a b => b.2 ≤ a.2) := by
  induction l with
  | nil => simp [sortByScore]
  | cons x xs ih => exact pairwise_insertPair ih

/-- Insertion changes a score class only by putting the new pair first
(the entries it jumps over have strictly greater score). -/
lemma filter_insertPair (v : Int) (x : Card × Int) (l : List (Card × Int)) :
    (insertPair x l).filter (fun p => p.2 == v) =
      ((if x.2 == v then [x] else []) ++ l.filter (fun p => p.2 == v)) := by
  induction l with
  | nil => cases hx : (x.2 == v) <;> simp [insertPair, List.filter, hx]
  | cons y ys ih =>
    unfold insertPair
    split
    · by_cases hx : x.2 = v <;> by_cases hy : y.2 = v <;>
        simp [List.filter_cons, hx, hy]
    · rename_i hgt
      have hxy : x.2 < y.2 := lt_of_not_le (by simpa using hgt)
      rw [List.filter_cons, List.filter_cons, ih]
      cases hyv : (y.2 == v) with
      | false => simp [hyv]
      | true =>
        have hy : y.2 = v := by simpa using hyv
        have hx : (x.2 == v) = false := by
          simp only [beq_eq_false_iff_ne, ne_eq]
          intro hxv
          rw [hxv, hy] at hxy
          exact lt_irrefl v hxy
        simp [hyv, hx]

/-- Sorting preserves each score class in input order (stability). -/
lemma filter_sortByScore (v : Int) (l : List (Card × Int)) :
    (sortByScore l).filter (fun p => p.2 == v) =
      l.filter (fun p => p.2 == v) := by
  induction l with
  | nil => rfl
  | cons x xs ih =>
    show (insertPair x (sortByScore xs)).filter (fun p => p.2 == v) = _
    rw [filter_insertPair, ih, List.filter_cons]
    cases hx : (x.2 == v) <;> simp [hx]

/-- Every pair the sorted list holds carries the score of its card. -/
lemma sortByScore_snd {u : UserPrefs} {cards : List Card}
    {p : Card × Int} (hp : p ∈ sortByScore (scorePairs u cards)) :
    p.2 = cardScore u p.1 := by
  have h1 : p ∈ scorePairs u cards :=
    (perm_sortByScore (scorePairs u cards)).mem_iff.mp hp
  unfold scorePairs at h1
  rcases List.mem_map.mp h1 with ⟨c, _, hc⟩
  rw [← hc]

/-- C5: the scorer returns the very cards it was given (a permutation),
in descending score order, and stably: every score class keeps the
relative order the eligibility filter produced. -/
theorem c5_scorer_stable_sort (u : UserPrefs) (cards : List Card) :
    (scoreCards u cards).Perm cards ∧
      (scoreCards u cards).Pairwise
        (fun a b => cardScore u b ≤ cardScore u a) ∧
      ∀ v : Int,
        (scoreCards u cards).filter (fun c => cardScore u c == v) =
          cards.filter (fun c => cardScore u c == v) := by
  refine ⟨perm_scoreCards u cards, ?_, ?_⟩
  · unfold scoreCards
    rw [List.pairwise_map]
    exact (pairwise_sortByScore (scorePairs u cards)).imp_of_mem
      (fun ha hb hle => by
        rw [sortByScore_snd ha, sortByScore_snd hb] at hle
        exact hle)
  · intro v
    unfold scoreCards
    rw [List.filter_map]
    have h1 : (sortByScore (scorePairs u cards)).filter
        ((fun c => cardScore u c == v) ∘ Prod.fst) =
        (sortByScore (scorePairs u cards)).filter (fun p => p.2 == v) := by
      apply List.filter_congr
      intro p hp
      simp [Function.comp, sortByScore_snd hp]
    rw [h1, filter_sortByScore]
    have h2 : (scorePairs u cards).filter (fun p => p.2 == v) =
        (cards.filter (fun c => cardScore u c == v)).map
          (fun c => (c, cardScore u c)) := by
      unfold scorePairs
      rw [List.filter_map]
      rfl
    rw [h2, List.map_map]
    exact List.map_id'' (fun x => rfl) _

/-- Shortlist cards come from the catalog (filtered or first-20). -/
lemma shortlist_subset {cards : List Card} {u : UserPrefs}
    {excl : List String} {c : Card}
    (h : c ∈ recommendShortlist cards u excl) : c ∈ cards := by
  unfold recommendShortlist at h
  dsimp only at h
  split at h
  · exact List.take_subset _ _ h
  · exact (List.mem_filter.mp h).1

/-- Ranked cards come from the catalog. -/
lemma rankedList_subset {cards : List Card} {u : UserPrefs}
    {excl : List String} {c : Card}
    (h : c ∈ rankedList cards u excl) : c ∈ cards :=
  shortlist_subset (mem_scoreCards.mp h)

/-- In every reachable session state the stored shortlist holds catalog
cards only. -/
lemma reach_recommended_subset {cards : List Card} {u : UserPrefs}
    {s : SessionState} (h : Reach cards u s) :
    ∀ c ∈ s.recommended, c ∈ cards := by
  induction h with
  | refl => intro c hc; simp [initState] at hc
  | tail hr hs ih =>
    cases hs with
    | recommend d hd =>
      intro c hc
      exact rankedList_subset (List.take_subset _ _ hc)
    | suggest d hd => exact ih
    | switchTo nm d hd => exact ih

/-- Cards of the alternatives list have an institution outside the
excluded set. -/
lemma altList_not_excluded {s : SessionState} {c : Card}
    (h : c ∈ altList s) : c.institution ∉ s.excluded := by
  intro hmem
  have h2 := (List.mem_filter.mp h).2
  simp only [Bool.and_eq_true, Bool.not_eq_true'] at h2
  have h3 : s.excluded.contains c.institution = true := List.elem_iff.mpr hmem
  rw [h2.2] at h3
  exact Bool.false_ne_true h3

/-- Every main-loop operation is in particular a session operation. -/
lemma stepM_step {cards : List Card} {u : UserPrefs} {s t : SessionState}
    (h : StepM cards u s t) : Step cards u s t := by
  cases h with
  | recommend c hc => exact Step.recommend s c hc
  | switchTo nm c hc => exact Step.switchTo s nm c hc

/-- Main-loop reachability implies reachability. -/
lemma reachM_reach {cards : List Card} {u : UserPrefs} {s : SessionState}
    (h : ReachM cards u s) : Reach cards u s := by
  induction h with
  | refl => exact Relation.ReflTransGen.refl
  | tail hr hs ih => exact Relation.ReflTransGen.tail ih (stepM_step hs)


/-- The main loop never grows the excluded set: `suggest_alternative`,
the only writer, has no call site. -/
lemma reachM_excluded_nil {cards : List Card} {u : UserPrefs}
    {s : SessionState} (h : ReachM cards u s) : s.excluded = [] := by
  induction h with
  | refl => rfl
  | tail hr hs ih =>
    cases hs with
    | recommend d hd => exact ih
    | switchTo nm d hd => exact ih

/-- C9 (counterexample): the invariant fails in the combined operation
system.  From the two-card catalog, `recommend` assigns `cardA`,
`suggest_alternative` assigns `cardB` and appends `"Bank Y"`, and a
subsequent `_switch_to_alternative` for `"beta"` re-assigns `cardB` —
whose institution is, at that assignment, already excluded. -/
theorem c9_invariant_counterexample :
    ¬ (∀ s t : SessionState, Reach sessionCatalog sessionUser s →
        Step sessionCatalog sessionUser s t →
        ∀ c : Card, t.cur = some c →
          c ∈ sessionCatalog ∧ c.institution ∉ s.excluded) := by
  intro h
  have r1 : Step sessionCatalog sessionUser initState sessState1 :=
    Step.recommend initState cardA (by decide)
  have r2 : Step sessionCatalog sessionUser sessState1 sessState2 :=
    Step.suggest sessState1 cardB (by decide)
  have r3 : Step sessionCatalog sessionUser sessState2 sessState3 :=
    Step.switchTo sessState2 "beta" cardB (by decide)
  have hreach : Reach sessionCatalog sessionUser sessState2 :=
    Relation.ReflTransGen.tail
      (Relation.ReflTransGen.tail Relation.ReflTransGen.refl r1) r2
  have hbad := (h sessState2 sessState3 hreach r3 cardB rfl).2
  exact hbad (by decide)

/-- C9 (amended): every assignment of `current_card` stores a catalog
card; an assignment made by `suggest_alternative` itself never stores a
card whose institution is already excluded; and along the operations the
program's main loop actually performs (`recommend` and
`_switch_to_alternative` — `suggest_alternative` has no call site, so the
excluded set stays empty), every assignment also satisfies the
not-excluded-at-assignment half of the invariant. -/
theorem c9_invariant_amended (cards : List Card) (u : UserPrefs) :
    (∀ s t : SessionState, Reach cards u s → Step cards u s t →
      ∀ c : Card, t.cur = some c → c ∈ cards) ∧
    (∀ (s : SessionState) (c : Card), c ∈ altList s →
      c.institution ∉ s.excluded) ∧
    (∀ s t : SessionState, ReachM cards u s → StepM cards u s t →
      ∀ c : Card, t.cur = some c →
        c ∈ cards ∧ c.institution ∉ s.excluded) := by
  have hmem : ∀ s t : SessionState, Reach cards u s → Step cards u s t →
      ∀ c : Card, t.cur = some c → c ∈ cards := by
    intro s t hr hs c hc
    cases hs with
    | recommend d hd =>
      cases hc
      exact rankedList_subset hd
    | suggest d hd =>
      cases hc
      exact reach_recommended_subset hr _ ((List.mem_filter.mp hd).1)
    | switchTo nm d hd =>
      cases hc
      exact reach_recommended_subset hr _ (List.mem_of_find?_eq_some hd)
  refine ⟨hmem, fun s c hc => altList_not_excluded hc, ?_⟩
  intro s t hr hs c hc
  refine ⟨hmem s t (reachM_reach hr) (stepM_step hs) c hc, ?_⟩
  rw [reachM_excluded_nil hr]
  exact List.not_mem_nil _

/-- Witness for C9's amended theorem at a concrete input: the initial
recommendation step of the two-card session stores `cardA`, a catalog
member whose institution is not excluded in the (empty) initial excluded
set. -/
theorem c9_invariant_amended_witness :
    cardA ∈ sessionCatalog ∧ cardA.institution ∉ initState.excluded :=
  (c9_invariant_amended sessionCatalog sessionUser).2.2 initState sessState1
    Relation.ReflTransGen.refl
    (StepM.recommend initState cardA (by decide)) cardA rfl
